import Mathlib

set_option autoImplicit false

namespace Stencil

/-! Shallow embedding of `src/lib/StencilConfigManager.js`.

JavaScript values occurring in stencil configurations are modelled by
`JsVal` (null, booleans, strings); JavaScript objects by association
lists in insertion order (`JsObj`).  File text is modelled as
`List Char`, with the OS line separator `os.EOL` taken to be a single
newline character (the POSIX value).  Fallible operations return
`Except CfgError`; the state the manager touches (the three files plus
a flag modelling whether the asynchronous `fs.promises.writeFile` of the
general config succeeds) is threaded explicitly as `FS`. -/

/-- A JavaScript value of the kinds stencil configurations contain. -/
inductive JsVal where
  | null : JsVal
  | bool : Bool → JsVal
  | str : List Char → JsVal
deriving DecidableEq, Repr

/-- A JavaScript object: keyed entries in insertion order. -/
abbrev JsObj := List (String × JsVal)

/-- JavaScript truthiness of a `JsVal`. -/
def jsTruthy : JsVal → Bool
  | .null => false
  | .bool b => b
  | .str s => !s.isEmpty

/-- Property read `o[k]`: value of the first entry whose key is `k`. -/
def objGet (o : JsObj) (k : String) : Option JsVal :=
  (o.find? (fun p => p.1 == k)).map (fun p => p.2)

/-- Property assignment `o[k] = v`: overwrite in place, else append. -/
def objSet (o : JsObj) (k : String) (v : JsVal) : JsObj :=
  if o.any (fun p => p.1 == k) then
    o.map (fun p => if p.1 == k then (k, v) else p)
  else o ++ [(k, v)]

/-- Truthiness of a property access such as `config.normalStoreUrl`;
an absent property is `undefined`, which is falsy. -/
def getTruthy (o : JsObj) (k : String) : Bool :=
  (objGet o k).elim false jsTruthy

/-- Object spread of `b` over `a`: every key of `a`, in order, with the
value from `b` when `b` also has the key, followed by the entries of `b`
whose keys `a` lacks. -/
def spreadObj (a b : JsObj) : JsObj :=
  a.map (fun p => (p.1, (objGet b p.1).getD p.2)) ++
    b.filter (fun q => !(a.any (fun p => p.1 == q.1)))

/-- Template-literal conversion of a value to text. -/
def jsValToString : JsVal → List Char
  | .null => "null".data
  | .bool true => "true".data
  | .bool false => "false".data
  | .str s => s

/-- The text produced by the template fragment `value || ''`: a falsy or
absent value prints as the empty string. -/
def jsValOrEmptyString : Option JsVal → List Char
  | some v => if jsTruthy v then jsValToString v else []
  | none => []

/-- Did an `Except` computation throw? -/
def throwsError {ε α : Type} : Except ε α → Bool
  | .error _ => true
  | .ok _ => false

/-- Errors the manager can raise: the uninitialized-project error, the
outdated-config error, a JSON parse failure propagated from
`parseJsonFile` on the general config file, and an I/O failure of the
general-config write. -/
inductive CfgError where
  | uninitialized
  | outdatedConfig
  | parseFailure
  | ioFailure
deriving DecidableEq, Repr

/-- The file-system state the manager touches.  JSON files are stored in
parsed form: `none` = file absent, `some none` = file present but
malformed, `some (some o)` = file present and parsing to `o` (the JSON
text written by `save` is pretty-printed `generalConfig`, which parses
back to the same object, so storing the object is faithful).
`writeFileOk` models whether `fs.promises.writeFile` of the general
config file succeeds; the synchronous env-file operations are assumed to
succeed. -/
structure FS where
  oldConfigFile : Option (Option JsObj)
  configFile : Option (Option JsObj)
  envFile : Option (List Char)
  writeFileOk : Bool
deriving DecidableEq, Repr

/-- The two environment variables the manager consumes; `none` = unset. -/
structure EnvVars where
  stencilAccessToken : Option (List Char)
  stencilGithubToken : Option (List Char)
deriving DecidableEq, Repr

/-- `content.split(os.EOL)` with `os.EOL` a single newline. -/
def splitLines : List Char → List (List Char)
  | [] => [[]]
  | c :: cs =>
    if c = '\n' then [] :: splitLines cs
    else
      match splitLines cs with
      | [] => [[c]]
      | l :: ls => (c :: l) :: ls

/-- `lines.join(os.EOL)` with `os.EOL` a single newline. -/
def joinLines : List (List Char) → List Char
  | [] => []
  | [l] => l
  | l :: ls => l ++ '\n' :: joinLines ls

/-- The JavaScript regex whitespace class `\s` (ASCII part). -/
def isJsSpace (c : Char) : Bool :=
  c == ' ' || c == '\t' || c == '\n' || c == '\r' || c == '\x0b' || c == '\x0c'

/-- The variable-length negative lookbehind `(?<!#\s*)`: the position is
blocked when the text before it ends with a hash followed by zero or
more whitespace characters. -/
def lookbehindBlocked (pre : List Char) : Bool :=
  ((pre.reverse.dropWhile isJsSpace).headD ' ') == '#'

/-- Search semantics of `line.match(new RegExp(...))` for the pattern
`(?<!#\s*)KEY(?==)`: scanning left to right, succeed at the first
position not blocked by the lookbehind where `pat` (= KEY followed by
the equals sign the lookahead demands) starts.  `pre` is the text before
the current position, `rest` the text from it. -/
def scanMatch (pat : List Char) : List Char → List Char → Bool
  | pre, [] => !(lookbehindBlocked pre) && pat.isPrefixOf []
  | pre, c :: cs =>
    ((!(lookbehindBlocked pre)) && pat.isPrefixOf (c :: cs)) ||
      scanMatch pat (pre ++ [c]) cs

/-- Does `line.match(new RegExp((?<!#\s*) + key + (?==)))` succeed? -/
def lineMatchesKey (key line : List Char) : Bool :=
  scanMatch (key ++ ['=']) [] line

/-- Index of the first line matching the key pattern.  The source
computes `vars.find(...)` followed by `vars.indexOf(target)`; because
the regex test depends only on a line's text, the found element's first
index is the first matching index, so this equals that composition
(`indexOf(undefined)` is `-1`, matching the `none` case). -/
def findMatchIdx (key : List Char) : List (List Char) → Option Nat
  | [] => none
  | l :: ls =>
    if lineMatchesKey key l then some 0
    else (findMatchIdx key ls).map (· + 1)

/-- `_setEnvValueToFile(key, value, envFile)`.  A missing env file is
created empty (`openSync(envFile, 'a')`).  NOTE the source reads
`.filter((v) => !v)`, which keeps exactly the falsy — that is, empty —
lines and discards every non-empty one, so the subsequent find/splice
replacement can never fire; this is translated faithfully.
`vars.splice(targetIndex, 1, entry)` is `List.set`, `vars.push` is
append, and the written text is the join of the resulting lines. -/
def setEnvValueToFile (key : List Char) (value : Option JsVal) (fs : FS) : FS :=
  let content := fs.envFile.getD []
  let vars := (splitLines content).filter (fun v => v.isEmpty)
  let entry := key ++ '=' :: jsValOrEmptyString value
  let newVars :=
    match findMatchIdx key vars with
    | some i => vars.set i entry
    | none => vars ++ [entry]
  { fs with envFile := some (joinLines newVars) }

/-- The fixed secret field names (`secretFieldsSet`). -/
def secretFieldsSet : List String := ["accessToken", "githubToken"]

/-- Result shape of `_splitStencilConfig`. -/
structure SplitConfig where
  generalConfig : JsObj
  secretsConfig : JsObj
deriving DecidableEq, Repr

/-- `_splitStencilConfig(config)`: partition the entries, in order, by
membership of the key in the secret-field set. -/
def splitStencilConfig (config : JsObj) : SplitConfig :=
  { generalConfig := config.filter (fun p => !(secretFieldsSet.contains p.1))
    secretsConfig := config.filter (fun p => secretFieldsSet.contains p.1) }

def stencilAccessTokenKey : List Char := "STENCIL_ACCESS_TOKEN".data

def stencilGithubTokenKey : List Char := "STENCIL_GITHUB_TOKEN".data

/-- Modelled from the spec: the fixed default API host `API_HOST` is
imported from `../constants`, which is outside `src/`.  Only its
identity matters to the claims, so it is a fixed non-empty string. -/
def API_HOST : JsVal := JsVal.str "https://api.service.example".data

/-- `save(config, envFile)`.  Splits the config, writes the general part
to the general config file (the commented-out secrets-file write is
omitted as in the source), then upserts the two secret values into the
env file.  The env file is the single env file of `FS`; the `envFile`
path argument only names it, so it is not a parameter here. -/
def save (config : JsObj) (fs : FS) : Except CfgError Unit × FS :=
  let sp := splitStencilConfig config
  if fs.writeFileOk then
    let fs1 := { fs with configFile := some (some sp.generalConfig) }
    let fs2 := setEnvValueToFile stencilAccessTokenKey
      (objGet sp.secretsConfig "accessToken") fs1
    let fs3 := setEnvValueToFile stencilGithubTokenKey
      (objGet sp.secretsConfig "githubToken") fs2
    (Except.ok (), fs3)
  else
    (Except.error CfgError.ioFailure, fs)

/-- `_migrateOldConfig(config)`: save, and only on success delete the
legacy file.  (The two log messages have no bearing on the claims.) -/
def migrateOldConfig (config : JsObj) (fs : FS) : Except CfgError Unit × FS :=
  match save config fs with
  | (Except.ok _, fs1) => (Except.ok (), { fs1 with oldConfigFile := none })
  | (Except.error e, fs1) => (Except.error e, fs1)

/-- `process.env.X || null`: an unset variable, and a variable set to
the empty string (falsy), both become null. -/
def envVarToJsVal : Option (List Char) → JsVal
  | some s => if s.isEmpty then JsVal.null else JsVal.str s
  | none => JsVal.null

/-- `_getSecretsConfigFromEnvVars()`: always an object (hence `some`). -/
def getSecretsConfigFromEnvVars (env : EnvVars) : Option JsObj :=
  some [("accessToken", envVarToJsVal env.stencilAccessToken),
        ("githubToken", envVarToJsVal env.stencilGithubToken)]

/-- `_validateStencilConfig(configFile, ignoreMissingFields)`. -/
def validateStencilConfig (configFile : JsObj) (ignoreMissingFields : Bool) :
    Except CfgError JsObj :=
  if !ignoreMissingFields &&
      (!(getTruthy configFile "normalStoreUrl") || !(getTruthy configFile "customLayouts")) then
    Except.error CfgError.outdatedConfig
  else if !(getTruthy configFile "apiHost") then
    Except.ok (objSet configFile "apiHost" API_HOST)
  else
    Except.ok configFile

/-- The merge `\x7b ...generalConfig, ...secretsConfig \x7d` performed by
`read` in its non-legacy branch (spreading null contributes nothing). -/
def mergedParsedConfig (generalConfig : Option JsObj) (env : EnvVars) : JsObj :=
  spreadObj (generalConfig.getD []) ((getSecretsConfigFromEnvVars env).getD [])

/-- `read(ignoreFileNotExists, ignoreMissingFields)`.  Legacy branch:
parse (malformed legacy JSON tolerated as the empty object), migrate,
validate.  Otherwise: parse the general file if present (malformed JSON
propagates), build the secrets object from env vars, and if either is
truthy merge and validate; else return null or raise the uninitialized
error according to `ignoreFileNotExists`. -/
def read (ignoreFileNotExists ignoreMissingFields : Bool) (env : EnvVars) (fs : FS) :
    Except CfgError (Option JsObj) × FS :=
  match fs.oldConfigFile with
  | some legacyParse =>
    let parsedConfig := legacyParse.getD []
    match migrateOldConfig parsedConfig fs with
    | (Except.ok _, fs1) =>
      match validateStencilConfig parsedConfig ignoreMissingFields with
      | Except.ok c => (Except.ok (some c), fs1)
      | Except.error e => (Except.error e, fs1)
    | (Except.error e, fs1) => (Except.error e, fs1)
  | none =>
    match fs.configFile with
    | some none => (Except.error CfgError.parseFailure, fs)
    | cf =>
      let generalConfig : Option JsObj :=
        match cf with
        | some (some o) => some o
        | _ => none
      let secretsConfig := getSecretsConfigFromEnvVars env
      if generalConfig.isSome || secretsConfig.isSome then
        match validateStencilConfig (mergedParsedConfig generalConfig env)
            ignoreMissingFields with
        | Except.ok c => (Except.ok (some c), fs)
        | Except.error e => (Except.error e, fs)
      else if ignoreFileNotExists then
        (Except.ok none, fs)
      else
        (Except.error CfgError.uninitialized, fs)

/-! Claim theorems. -/

/-- C1: the claimed invariant fails on the code.  Saving a config whose
two secret fields are "abc" and "def" onto an empty state leaves the
env file holding only the github line: the second upsert call re-reads
the file, keeps only its empty lines (the source filter keeps falsy
lines), and so erases the line the first upsert wrote.  No line of the
resulting file carries the access-token key. -/
theorem c1_save_loses_access_token_line :
    ((save [("accessToken", JsVal.str "abc".data), ("githubToken", JsVal.str "def".data)]
        ⟨none, none, none, true⟩).2.envFile = some "\nSTENCIL_GITHUB_TOKEN=def".data) ∧
    ((splitLines (((save [("accessToken", JsVal.str "abc".data),
          ("githubToken", JsVal.str "def".data)]
        ⟨none, none, none, true⟩).2.envFile).getD [])).contains
      "STENCIL_ACCESS_TOKEN=abc".data = false) := by
  decide

/-- C2: the claimed line handling fails on the code.  On a file holding
"A=1\nB=2", an upsert of key "A" to value "x" yields "A=x": the filter
`(v) => !v` keeps only the empty lines, so both existing non-empty
lines are dropped (rather than kept) and the new line is appended to
nothing, instead of the claimed in-place replacement "A=x\nB=2". -/
theorem c2_upsert_drops_nonempty_lines :
    ((setEnvValueToFile "A".data (some (JsVal.str "x".data))
        ⟨none, none, some "A=1\nB=2".data, true⟩).envFile = some "A=x".data) ∧
    ((setEnvValueToFile "A".data (some (JsVal.str "x".data))
        ⟨none, none, some "A=1\nB=2".data, true⟩).envFile ≠ some "A=x\nB=2".data) := by
  decide

/-- C3: the round-trip fails on the code for the secret fields.  After
saving a valid config with accessToken "abc" and githubToken "def",
no line of the environment file matches the access-token variable, so
the original access-token value is not recoverable from the file. -/
theorem c3_roundtrip_secret_not_recoverable :
    (objGet [("normalStoreUrl", JsVal.str "http://x".data),
             ("customLayouts", JsVal.bool true),
             ("accessToken", JsVal.str "abc".data),
             ("githubToken", JsVal.str "def".data)] "accessToken" =
      some (JsVal.str "abc".data)) ∧
    ((splitLines (((save [("normalStoreUrl", JsVal.str "http://x".data),
             ("customLayouts", JsVal.bool true),
             ("accessToken", JsVal.str "abc".data),
             ("githubToken", JsVal.str "def".data)]
        ⟨none, none, none, true⟩).2.envFile).getD [])).all
      (fun l => !(lineMatchesKey stencilAccessTokenKey l)) = true) := by
  decide

/-- C4 counterexample: with no legacy file, no general file and both
env vars unset, `read(true, false)` does not return null — it raises
the outdated-config error — and `read(false, false)` raises the
outdated-config error, not the uninitialized one (which is therefore
not the error the claim requires). -/
theorem c4_counterexample :
    ((read true false ⟨none, none⟩ ⟨none, none, none, true⟩).1 =
      Except.error CfgError.outdatedConfig) ∧
    ((read false false ⟨none, none⟩ ⟨none, none, none, true⟩).1 =
      Except.error CfgError.outdatedConfig) ∧
    ((Except.error CfgError.outdatedConfig : Except CfgError (Option JsObj)) ≠
      Except.ok none) ∧
    ((CfgError.outdatedConfig ≠ CfgError.uninitialized)) := by
  refine ⟨rfl, rfl, fun h => Except.noConfusion h, fun h => CfgError.noConfusion h⟩

/-- C4 amended: when neither config file exists and both secret env
vars are unset, the secrets object built from the env vars is still a
(truthy) object, so `read` never reaches its null-return or
uninitialized-error branches: with `ignoreMissingFields = false` it
fails with the outdated-config error (for either value of
`ignoreFileNotExists`), and with `ignoreMissingFields = true` it
returns the secrets-only config with both secrets null and the default
api host filled in. -/
theorem c4_amended_read_behavior (env : EnvVars) (fs : FS)
    (h1 : fs.oldConfigFile = none) (h2 : fs.configFile = none)
    (h3 : env = ⟨none, none⟩) :
    ((read true false env fs).1 = Except.error CfgError.outdatedConfig) ∧
    ((read false false env fs).1 = Except.error CfgError.outdatedConfig) ∧
    ((read true true env fs).1 = Except.ok (some
      [("accessToken", JsVal.null), ("githubToken", JsVal.null), ("apiHost", API_HOST)])) ∧
    ((read false true env fs).1 = Except.ok (some
      [("accessToken", JsVal.null), ("githubToken", JsVal.null), ("apiHost", API_HOST)])) := by
  subst h3
  obtain ⟨o, c, e, w⟩ := fs
  simp only at h1 h2
  subst h1; subst h2
  exact ⟨rfl, rfl, rfl, rfl⟩

theorem c4_amended_read_behavior_witness :
    ((⟨none, none, none, true⟩ : FS).oldConfigFile = none) ∧
    (((read true false ⟨none, none⟩ ⟨none, none, none, true⟩).1 =
        Except.error CfgError.outdatedConfig) ∧
      ((read false false ⟨none, none⟩ ⟨none, none, none, true⟩).1 =
        Except.error CfgError.outdatedConfig) ∧
      ((read true true ⟨none, none⟩ ⟨none, none, none, true⟩).1 = Except.ok (some
        [("accessToken", JsVal.null), ("githubToken", JsVal.null), ("apiHost", API_HOST)])) ∧
      ((read false true ⟨none, none⟩ ⟨none, none, none, true⟩).1 = Except.ok (some
        [("accessToken", JsVal.null), ("githubToken", JsVal.null), ("apiHost", API_HOST)]))) :=
  ⟨rfl, c4_amended_read_behavior ⟨none, none⟩ ⟨none, none, none, true⟩ rfl rfl rfl⟩

/-- C5: the migration scenario fails on the code in two of its
conjuncts.  With the legacy file holding the given object and nothing
else present, `read()` does delete the legacy file and does return the
object with the default api host appended; but the general config file
is written before validation runs, so it holds only normalStoreUrl and
customLayouts (no apiHost), and the env file ends up holding only
"\nSTENCIL_GITHUB_TOKEN=" — the STENCIL_ACCESS_TOKEN=abc line written
by the first upsert is erased by the second (the source filter keeps
only empty lines). -/
theorem c5_migration_scenario :
    read false false ⟨none, none⟩
      ⟨some (some [("normalStoreUrl", JsVal.str "http://x".data),
                   ("customLayouts", JsVal.bool true),
                   ("accessToken", JsVal.str "abc".data)]), none, none, true⟩ =
    (Except.ok (some [("normalStoreUrl", JsVal.str "http://x".data),
                      ("customLayouts", JsVal.bool true),
                      ("accessToken", JsVal.str "abc".data),
                      ("apiHost", API_HOST)]),
     ⟨none,
      some (some [("normalStoreUrl", JsVal.str "http://x".data),
                  ("customLayouts", JsVal.bool true)]),
      some "\nSTENCIL_GITHUB_TOKEN=".data,
      true⟩) := by
  rfl

/-- C6: if `save` throws during legacy migration, the legacy file is
not deleted — `_migrateOldConfig` awaits `save` before `unlink`, so a
save failure propagates with the legacy file untouched. -/
theorem c6_save_failure_preserves_legacy (config : JsObj) (fs : FS)
    (h : throwsError (save config fs).1 = true) :
    (((migrateOldConfig config fs).2).oldConfigFile = fs.oldConfigFile) ∧
    (throwsError (migrateOldConfig config fs).1 = true) := by
  cases hw : fs.writeFileOk with
  | false => simp [migrateOldConfig, save, hw, throwsError]
  | true => simp [save, hw, throwsError] at h

theorem c6_save_failure_preserves_legacy_witness :
    (throwsError (save [] ⟨some (some []), none, none, false⟩).1 = true) ∧
    ((((migrateOldConfig [] ⟨some (some []), none, none, false⟩).2).oldConfigFile =
        (⟨some (some []), none, none, false⟩ : FS).oldConfigFile) ∧
      (throwsError (migrateOldConfig [] ⟨some (some []), none, none, false⟩).1 = true)) :=
  ⟨by decide, c6_save_failure_preserves_legacy [] ⟨some (some []), none, none, false⟩ (by decide)⟩

/-- C9: with `ignoreMissingFields = false`, validation fails with the
outdated-config error exactly when the store-URL or custom-layouts
property is absent or falsy; with `ignoreMissingFields = true` it never
throws. -/
theorem c9_required_fields_validation (config : JsObj) :
    ((validateStencilConfig config false = Except.error CfgError.outdatedConfig) ↔
      (getTruthy config "normalStoreUrl" = false ∨ getTruthy config "customLayouts" = false)) ∧
    (throwsError (validateStencilConfig config true) = false) := by
  constructor
  · unfold validateStencilConfig
    cases hu : getTruthy config "normalStoreUrl" <;>
      cases hc : getTruthy config "customLayouts" <;> simp
    split <;> simp
  · unfold validateStencilConfig
    simp only [Bool.not_true, Bool.false_and, if_neg (by simp : ¬(false = true))]
    split <;> rfl

/-! Helper lemmas about the env-file line functions, used for C7. -/

theorem filter_isEmpty_eq_nil_mem {L : List (List Char)} {l : List Char}
    (h : l ∈ L.filter (fun v => v.isEmpty)) : l = [] := by
  have hp := List.of_mem_filter h
  cases l with
  | nil => rfl
  | cons a as => simp at hp

theorem lineMatchesKey_nil (key : List Char) : lineMatchesKey key [] = false := by
  cases key with
  | nil => rfl
  | cons c cs => rfl

theorem findMatchIdx_of_all_nil (key : List Char) (L : List (List Char))
    (h : ∀ l ∈ L, l = []) : findMatchIdx key L = none := by
  induction L with
  | nil => rfl
  | cons l ls ih =>
    have hl := h l (List.mem_cons_self l ls)
    subst hl
    simp [findMatchIdx, lineMatchesKey_nil,
      ih (fun x hx => h x (List.mem_cons_of_mem _ hx))]

theorem findMatchIdx_filter_none (key : List Char) (L : List (List Char)) :
    findMatchIdx key (L.filter (fun v => v.isEmpty)) = none :=
  findMatchIdx_of_all_nil key _ (fun _ hl => filter_isEmpty_eq_nil_mem hl)

/-- Because the buggy filter leaves only empty lines and the key pattern
never matches an empty line, every upsert call takes the append branch:
the resulting state keeps only the empty lines of the old content plus
the new KEY=value line. -/
theorem setEnv_envFile (key : List Char) (value : Option JsVal) (fs : FS) :
    setEnvValueToFile key value fs =
      { fs with envFile := some (joinLines
          (((splitLines (fs.envFile.getD [])).filter (fun v => v.isEmpty)) ++
            [key ++ '=' :: jsValOrEmptyString value])) } := by
  simp only [setEnvValueToFile, findMatchIdx_filter_none]

theorem splitLines_of_no_newline (l : List Char) (h : '\n' ∉ l) : splitLines l = [l] := by
  induction l with
  | nil => rfl
  | cons c cs ih =>
    have hc : ¬(c = '\n') := fun hc => h (hc ▸ List.mem_cons_self c cs)
    have hcs : '\n' ∉ cs := fun hm => h (List.mem_cons_of_mem c hm)
    simp [splitLines, hc, ih hcs]

theorem splitLines_append_cons (l r : List Char) (h : '\n' ∉ l) :
    splitLines (l ++ '\n' :: r) = l :: splitLines r := by
  induction l with
  | nil => simp [splitLines]
  | cons c cs ih =>
    have hc : ¬(c = '\n') := fun hc => h (hc ▸ List.mem_cons_self c cs)
    have hcs : '\n' ∉ cs := fun hm => h (List.mem_cons_of_mem c hm)
    simp [splitLines, hc, ih hcs]

theorem splitLines_joinLines (L : List (List Char)) (hne : L ≠ [])
    (h : ∀ l ∈ L, '\n' ∉ l) : splitLines (joinLines L) = L := by
  induction L with
  | nil => exact absurd rfl hne
  | cons l ls ih =>
    cases ls with
    | nil =>
      have hj : joinLines [l] = l := rfl
      rw [hj]
      exact splitLines_of_no_newline l (h l (by simp))
    | cons l2 ls2 =>
      have hj : joinLines (l :: l2 :: ls2) = l ++ '\n' :: joinLines (l2 :: ls2) := rfl
      rw [hj, splitLines_append_cons l _ (h l (by simp)),
        ih (by simp) (fun x hx => h x (List.mem_cons_of_mem _ hx))]

theorem isPrefixOf_append_self (l r : List Char) : l.isPrefixOf (l ++ r) = true := by
  induction l with
  | nil => cases r <;> rfl
  | cons a as ih => simp [List.isPrefixOf, ih]

theorem scanMatch_of_here (pat pre rest : List Char)
    (hb : lookbehindBlocked pre = false) (hp : pat.isPrefixOf rest = true) :
    scanMatch pat pre rest = true := by
  cases rest with
  | nil => simp [scanMatch, hb, hp]
  | cons c cs => simp [scanMatch, hb, hp]

theorem lineMatchesKey_entry (key t : List Char) :
    lineMatchesKey key (key ++ '=' :: t) = true := by
  unfold lineMatchesKey
  have h2 : (key ++ ['=']).isPrefixOf (key ++ '=' :: t) = true := by
    have hassoc : key ++ '=' :: t = (key ++ ['=']) ++ t := by simp
    rw [hassoc]
    exact isPrefixOf_append_self _ _
  exact scanMatch_of_here _ _ _ rfl h2

theorem entry_isEmpty (key t : List Char) : (key ++ '=' :: t).isEmpty = false := by
  cases key <;> rfl

/-- C7: the upsert is idempotent.  For any starting state and any key
and value whose printed text contains no line separator, running the
upsert twice with the same key and value leaves the state (hence the
file content) exactly as after the first run, and the resulting file
holds exactly one line whose key token matches the key. -/
theorem c7_upsert_idempotent (key : List Char) (value : Option JsVal) (fs : FS)
    (hk : '\n' ∉ key) (hv : '\n' ∉ jsValOrEmptyString value) :
    (setEnvValueToFile key value (setEnvValueToFile key value fs) =
      setEnvValueToFile key value fs) ∧
    ((splitLines (((setEnvValueToFile key value
          (setEnvValueToFile key value fs)).envFile).getD [])).countP
        (fun l => lineMatchesKey key l) = 1) := by
  have hnn : ∀ l ∈ ((splitLines (fs.envFile.getD [])).filter (fun v => v.isEmpty)) ++
      [key ++ '=' :: jsValOrEmptyString value], '\n' ∉ l := by
    intro l hl
    rcases List.mem_append.mp hl with hmem | hmem
    · rw [filter_isEmpty_eq_nil_mem hmem]
      exact List.not_mem_nil _
    · rw [List.mem_singleton.mp hmem]
      intro hx
      rcases List.mem_append.mp hx with hx | hx
      · exact hk hx
      · rcases List.mem_cons.mp hx with hx | hx
        · exact absurd hx (by decide)
        · exact hv hx
  have hsplit : splitLines (joinLines
      (((splitLines (fs.envFile.getD [])).filter (fun v => v.isEmpty)) ++
        [key ++ '=' :: jsValOrEmptyString value])) =
      ((splitLines (fs.envFile.getD [])).filter (fun v => v.isEmpty)) ++
        [key ++ '=' :: jsValOrEmptyString value] :=
    splitLines_joinLines _ (by simp) hnn
  have hfilter : ((((splitLines (fs.envFile.getD [])).filter (fun v => v.isEmpty)) ++
        [key ++ '=' :: jsValOrEmptyString value]).filter (fun v => v.isEmpty)) =
      ((splitLines (fs.envFile.getD [])).filter (fun v => v.isEmpty)) := by
    rw [List.filter_append]
    have ha : (((splitLines (fs.envFile.getD [])).filter (fun v => v.isEmpty)).filter
        (fun v => v.isEmpty)) =
        ((splitLines (fs.envFile.getD [])).filter (fun v => v.isEmpty)) :=
      List.filter_eq_self.mpr (fun a ha => by rw [filter_isEmpty_eq_nil_mem ha]; rfl)
    have hb : ([key ++ '=' :: jsValOrEmptyString value].filter (fun v => v.isEmpty)) =
        ([] : List (List Char)) := by
      simp [List.filter, entry_isEmpty]
    rw [ha, hb, List.append_nil]
  have h2 : setEnvValueToFile key value (setEnvValueToFile key value fs) =
      setEnvValueToFile key value fs := by
    rw [setEnv_envFile key value fs, setEnv_envFile key value]
    simp only [Option.getD_some]
    rw [hsplit, hfilter]
  refine ⟨h2, ?_⟩
  rw [h2, setEnv_envFile key value fs]
  simp only [Option.getD_some]
  rw [hsplit, List.countP_append]
  have hzero : (((splitLines (fs.envFile.getD [])).filter (fun v => v.isEmpty)).countP
      (fun l => lineMatchesKey key l)) = 0 := by
    rw [List.countP_eq_zero]
    intro a ha
    rw [filter_isEmpty_eq_nil_mem ha, lineMatchesKey_nil]
    simp
  have hone : (List.countP (fun l => lineMatchesKey key l)
      [key ++ '=' :: jsValOrEmptyString value]) = 1 := by
    simp [List.countP_cons, lineMatchesKey_entry]
  rw [hzero, hone]

theorem c7_upsert_idempotent_witness :
    ('\n' ∉ "STENCIL_ACCESS_TOKEN".data) ∧
    ('\n' ∉ jsValOrEmptyString (some (JsVal.str "abc".data))) ∧
    ((setEnvValueToFile "STENCIL_ACCESS_TOKEN".data (some (JsVal.str "abc".data))
        (setEnvValueToFile "STENCIL_ACCESS_TOKEN".data (some (JsVal.str "abc".data))
          ⟨none, none, some "X=1\n\nY=2".data, true⟩) =
      setEnvValueToFile "STENCIL_ACCESS_TOKEN".data (some (JsVal.str "abc".data))
        ⟨none, none, some "X=1\n\nY=2".data, true⟩) ∧
    ((splitLines (((setEnvValueToFile "STENCIL_ACCESS_TOKEN".data
          (some (JsVal.str "abc".data))
          (setEnvValueToFile "STENCIL_ACCESS_TOKEN".data (some (JsVal.str "abc".data))
            ⟨none, none, some "X=1\n\nY=2".data, true⟩)).envFile).getD [])).countP
        (fun l => lineMatchesKey "STENCIL_ACCESS_TOKEN".data l) = 1)) :=
  ⟨by decide, by decide,
    c7_upsert_idempotent "STENCIL_ACCESS_TOKEN".data (some (JsVal.str "abc".data))
      ⟨none, none, some "X=1\n\nY=2".data, true⟩ (by decide) (by decide)⟩

/-- C8: the comment-exclusion behaviour fails on the code.  The regex
itself does refuse to match the commented line (first conjunct), but
the upsert never gets to consult it: the filter keeps only empty lines,
so the commented line is erased from the file rather than preserved,
and the resulting file is just the new line instead of the claimed
comment-plus-appended-line content. -/
theorem c8_commented_line_not_preserved :
    (lineMatchesKey stencilAccessTokenKey "# STENCIL_ACCESS_TOKEN=old".data = false) ∧
    ((setEnvValueToFile stencilAccessTokenKey (some (JsVal.str "new".data))
        ⟨none, none, some "# STENCIL_ACCESS_TOKEN=old".data, true⟩).envFile =
      some "STENCIL_ACCESS_TOKEN=new".data) ∧
    ((setEnvValueToFile stencilAccessTokenKey (some (JsVal.str "new".data))
        ⟨none, none, some "# STENCIL_ACCESS_TOKEN=old".data, true⟩).envFile ≠
      some "# STENCIL_ACCESS_TOKEN=old\nSTENCIL_ACCESS_TOKEN=new".data) := by
  decide

/-! Helper lemmas about `objGet` over the spread merge, used for C10. -/

theorem objGet_cons (p : String × JsVal) (a : JsObj) (k : String) :
    objGet (p :: a) k = if p.1 == k then some p.2 else objGet a k := by
  cases h : (p.1 == k) <;> simp [objGet, List.find?, h]

theorem objGet_append_left (a b : JsObj) (k : String) (w : JsVal)
    (h : objGet a k = some w) : objGet (a ++ b) k = some w := by
  induction a with
  | nil => simp [objGet] at h
  | cons p a' ih =>
    rw [objGet_cons] at h
    rw [List.cons_append, objGet_cons]
    cases hpk : (p.1 == k) <;> simp [hpk] at h ⊢
    · exact ih h
    · exact h

theorem objGet_append_right (a b : JsObj) (k : String)
    (h : objGet a k = none) : objGet (a ++ b) k = objGet b k := by
  induction a with
  | nil => simp
  | cons p a' ih =>
    rw [objGet_cons] at h
    rw [List.cons_append, objGet_cons]
    cases hpk : (p.1 == k) <;> simp [hpk] at h ⊢
    exact ih h

theorem objGet_map_override (a b : JsObj) (k : String) :
    objGet (a.map (fun p => (p.1, (objGet b p.1).getD p.2))) k =
      (a.find? (fun p => p.1 == k)).map (fun p => (objGet b p.1).getD p.2) := by
  induction a with
  | nil => rfl
  | cons p a' ih =>
    rw [List.map_cons, objGet_cons]
    cases hpk : (p.1 == k) <;> simp [List.find?, hpk, ih]

theorem find?_filter_of_pass (b : JsObj) (q : String × JsVal → Bool) (k : String)
    (h : ∀ x : String × JsVal, x.1 = k → q x = true) :
    (b.filter q).find? (fun p => p.1 == k) = b.find? (fun p => p.1 == k) := by
  induction b with
  | nil => rfl
  | cons x b' ih =>
    cases hqx : q x with
    | true =>
      rw [List.filter_cons]
      cases hxk : (x.1 == k) <;> simp [hqx, List.find?, hxk, ih]
    | false =>
      have hxk : (x.1 == k) = false := by
        cases hxk : (x.1 == k) with
        | false => rfl
        | true =>
          have hq := h x (eq_of_beq hxk)
          rw [hq] at hqx
          exact absurd hqx (by simp)
      rw [List.filter_cons]
      simp [hqx, List.find?, hxk, ih]

/-- In the spread merge, a key that the right object carries always
resolves to the right object's value (secrets override the general
config, whether or not the general config also has the key). -/
theorem objGet_spread_of_right (a b : JsObj) (k : String) (w : JsVal)
    (hw : objGet b k = some w) : objGet (spreadObj a b) k = some w := by
  unfold spreadObj
  cases hfa : a.find? (fun p => p.1 == k) with
  | some p =>
    have hbeq : (p.1 == k) = true := by simpa using List.find?_some hfa
    have hpk : p.1 = k := eq_of_beq hbeq
    apply objGet_append_left
    rw [objGet_map_override, hfa]
    simp [hpk, hw]
  | none =>
    have hmap : objGet (a.map (fun p => (p.1, (objGet b p.1).getD p.2))) k = none := by
      rw [objGet_map_override, hfa]
      rfl
    rw [objGet_append_right _ _ _ hmap]
    have hany : (a.any (fun p => p.1 == k)) = false := by
      cases hx : a.any (fun p => p.1 == k) with
      | false => rfl
      | true =>
        obtain ⟨p, hp, hpk⟩ := List.any_eq_true.mp hx
        have hnone := List.find?_eq_none.mp hfa p hp
        exact absurd hpk hnone
    have hpass : ∀ x : String × JsVal, x.1 = k →
        (!(a.any (fun p => p.1 == x.1))) = true := by
      intro x hx
      rw [hx, hany]
      rfl
    unfold objGet at hw ⊢
    rw [find?_filter_of_pass b _ k hpass]
    exact hw

theorem envVarToJsVal_ne_empty_str (v : Option (List Char)) :
    envVarToJsVal v ≠ JsVal.str [] := by
  cases v with
  | none => simp [envVarToJsVal]
  | some s =>
    cases s with
    | nil => simp [envVarToJsVal]
    | cons a as => simp [envVarToJsVal]

/-- C10: in the non-legacy read path, for every environment and general
config: the secrets object built from the env vars is a (non-null)
object; each of the two env vars, taken by itself, yields a null
secrets-object field (hence a null merged-config field) whenever it is
unset or set to the empty string — regardless of the other variable —
and neither merged secret field is ever the empty string. -/
theorem c10_empty_env_var_treated_as_unset (env : EnvVars) (g : Option JsObj) :
    ((getSecretsConfigFromEnvVars env).isSome = true) ∧
    ((env.stencilAccessToken = none ∨ env.stencilAccessToken = some []) →
      objGet (mergedParsedConfig g env) "accessToken" = some JsVal.null) ∧
    ((env.stencilGithubToken = none ∨ env.stencilGithubToken = some []) →
      objGet (mergedParsedConfig g env) "githubToken" = some JsVal.null) ∧
    (objGet (mergedParsedConfig g env) "accessToken" ≠ some (JsVal.str [])) ∧
    (objGet (mergedParsedConfig g env) "githubToken" ≠ some (JsVal.str [])) := by
  have hacc : objGet (mergedParsedConfig g env) "accessToken" =
      some (envVarToJsVal env.stencilAccessToken) :=
    objGet_spread_of_right (g.getD []) _ "accessToken" _ rfl
  have hgit : objGet (mergedParsedConfig g env) "githubToken" =
      some (envVarToJsVal env.stencilGithubToken) :=
    objGet_spread_of_right (g.getD []) _ "githubToken" _ rfl
  refine ⟨rfl, ?_, ?_, ?_, ?_⟩
  · intro hA
    rw [hacc]
    rcases hA with h | h <;> rw [h] <;> rfl
  · intro hG
    rw [hgit]
    rcases hG with h | h <;> rw [h] <;> rfl
  · rw [hacc]
    intro h
    exact envVarToJsVal_ne_empty_str env.stencilAccessToken (Option.some.inj h)
  · rw [hgit]
    intro h
    exact envVarToJsVal_ne_empty_str env.stencilGithubToken (Option.some.inj h)

theorem c10_empty_env_var_treated_as_unset_witness :
    ((getSecretsConfigFromEnvVars ⟨some [], some "tok123".data⟩).isSome = true) ∧
    ((⟨some [], some "tok123".data⟩ : EnvVars).stencilAccessToken = none ∨
      (⟨some [], some "tok123".data⟩ : EnvVars).stencilAccessToken = some []) ∧
    (objGet (mergedParsedConfig (some [("accessToken", JsVal.str "zzz".data)])
      ⟨some [], some "tok123".data⟩) "accessToken" = some JsVal.null) ∧
    (objGet (mergedParsedConfig (some [("accessToken", JsVal.str "zzz".data)])
      ⟨some [], some "tok123".data⟩) "githubToken" ≠ some (JsVal.str [])) :=
  ⟨(c10_empty_env_var_treated_as_unset ⟨some [], some "tok123".data⟩
      (some [("accessToken", JsVal.str "zzz".data)])).1,
    Or.inr rfl,
    (c10_empty_env_var_treated_as_unset ⟨some [], some "tok123".data⟩
      (some [("accessToken", JsVal.str "zzz".data)])).2.1 (Or.inr rfl),
    (c10_empty_env_var_treated_as_unset ⟨some [], some "tok123".data⟩
      (some [("accessToken", JsVal.str "zzz".data)])).2.2.2.2⟩

end Stencil
